import Mathlib

/-!
Verification of `src/journal.py` (janjve/journal): a shallow embedding of the
journal-file store and the interactive curses date picker, with theorems
checking the design specification's claims against the code.

Modelling conventions:
* A calendar date (`datetime.datetime`'s date part) is represented by its
  proleptic-Gregorian day number `z : Int` (days since 1970-01-01, as in
  Howard Hinnant's civil-calendar algorithms).  `datetime.timedelta(days=i)`
  subtraction is day-number subtraction: the code only ever subtracts whole
  days, which leaves the time of day unchanged, so the date part decrements
  by exactly `i` calendar days.
* The filesystem is an association list from paths to file contents
  (a file's text as a `List Char`); the head entry shadows older ones.
* `curses` key codes are the concrete integers `getch` returns
  (`KEY_UP = 259`, `KEY_DOWN = 258`, `ord('\n') = 10`, `ord('q') = 113`).
* A `stdscr.addstr(y, x, s)` call is modelled as succeeding iff the text is
  drawn inside the window without wrapping (`0 ≤ y < height`,
  `0 ≤ x` and `x + len(s) ≤ width`); otherwise it raises `curses.error`.
  The source wraps no draw call in a handler, so a failing draw aborts
  `select_date` (modelled by the `crashed` outcome).
* The `vi` subprocess launched by `create_journal_file` (line 34) and the
  banner `print` calls are external collaborators per the specification's
  section 6 and are not part of the filesystem model.
-/

namespace Journal

/-! ## Calendar arithmetic (civil date ↔ day number)

These are the standard civil-from-days / days-from-civil algorithms; they
implement the date arithmetic that `datetime` performs in the source. -/

def daysFromCivil (y : Int) (m d : Nat) : Int :=
  let y' : Int := if m ≤ 2 then y - 1 else y
  let era : Int := Int.fdiv y' 400
  let yoe : Nat := (y' - era * 400).toNat
  let mp : Nat := if 2 < m then m - 3 else m + 9
  let doy : Nat := (153 * mp + 2) / 5 + d - 1
  let doe : Nat := yoe * 365 + yoe / 4 - yoe / 100 + doy
  era * 146097 + (doe : Int) - 719468

def civilFromDays (z : Int) : Int × Nat × Nat :=
  let z' : Int := z + 719468
  let era : Int := Int.fdiv z' 146097
  let doe : Nat := (z' - era * 146097).toNat
  let yoe : Nat := (doe - doe / 1460 + doe / 36524 - doe / 146096) / 365
  let y : Int := (yoe : Int) + era * 400
  let doy : Nat := doe - (365 * yoe + yoe / 4 - yoe / 100)
  let mp : Nat := (5 * doy + 2) / 153
  let d : Nat := doy - (153 * mp + 2) / 5 + 1
  let m : Nat := if mp < 10 then mp + 3 else mp - 9
  (if m ≤ 2 then y + 1 else y, m, d)

/-- Day of week of day number `z`: `0` = Sunday, …, `6` = Saturday. -/
def weekdayFromDays (z : Int) : Nat :=
  ((z + 4).emod 7).toNat

/-- `datetime.MINYEAR = 1 ≤ year ≤ 9999 = datetime.MAXYEAR`: the day numbers
representable as Python `datetime` values, the domain of the source's dates. -/
def validDay (z : Int) : Prop :=
  1 ≤ (civilFromDays z).1 ∧ (civilFromDays z).1 ≤ 9999

instance (z : Int) : Decidable (validDay z) := by
  unfold validDay; infer_instance

/-! ## Title formatting (`get_title`, src/journal.py lines 11-12)

`date.strftime("%Y-%m-%d-%a").upper()`: `%Y` is the zero-padded 4-digit
year, `%m`/`%d` the zero-padded month and day, `%a` the English 3-letter
weekday abbreviation; `.upper()` maps `Char.toUpper` over the code points. -/

/-- The decimal digit character for `n % 10`-style values (`n < 10`). -/
def digitChar (n : Nat) : Char :=
  Char.ofNat (48 + n)

/-- `%m` / `%d`: zero-padded two-digit decimal rendering. -/
def pad2chars (n : Nat) : List Char :=
  [digitChar (n / 10 % 10), digitChar (n % 10)]

/-- `%Y`: zero-padded four-digit decimal rendering (the documented behaviour
for the `datetime` year range 1..9999). -/
def pad4chars (n : Nat) : List Char :=
  [digitChar (n / 1000 % 10), digitChar (n / 100 % 10),
   digitChar (n / 10 % 10), digitChar (n % 10)]

/-- `%a`: English 3-letter weekday abbreviation, indexed Sunday = 0. -/
def weekdayAbbrevChars : Nat → List Char
  | 0 => ['S', 'u', 'n']
  | 1 => ['M', 'o', 'n']
  | 2 => ['T', 'u', 'e']
  | 3 => ['W', 'e', 'd']
  | 4 => ['T', 'h', 'u']
  | 5 => ['F', 'r', 'i']
  | _ + 6 => ['S', 'a', 't']

/-- The code points of `date.strftime("%Y-%m-%d-%a")`. -/
def titleChars (z : Int) : List Char :=
  let c := civilFromDays z
  pad4chars c.1.toNat ++ ['-'] ++ pad2chars c.2.1 ++ ['-'] ++ pad2chars c.2.2
    ++ ['-'] ++ weekdayAbbrevChars (weekdayFromDays z)

/-- The code points of `get_title`: `.upper()` applied to the `strftime`
output. -/
def titleU (z : Int) : List Char :=
  (titleChars z).map Char.toUpper

/-- `get_title` (src/journal.py lines 11-12):
`date.strftime("%Y-%m-%d-%a").upper()`. -/
def get_title (z : Int) : String :=
  String.mk (titleU z)

/-! ## Filesystem model and the journal store -/

abbrev Path := String

/-- A file's text, as its list of characters. -/
abbrev Content := List Char

/-- The filesystem: an association list from paths to file contents; the
head entry for a path shadows older entries. -/
abbrev FS := List (Path × Content)

def fsLookup : FS → Path → Option Content
  | [], _ => none
  | (p, c) :: rest, q => if p = q then some c else fsLookup rest q

/-- `os.path.exists`. -/
def fsExists (fs : FS) (p : Path) : Bool :=
  (fsLookup fs p).isSome

/-- `open(path, "w")` followed by writing `c`: the path now maps to `c`. -/
def fsWrite (fs : FS) (p : Path) (c : Content) : FS :=
  (p, c) :: fs

/-- `os.path.join(dir, name)` for a `dir` not ending in a separator. -/
def joinPath (dir name : String) : String :=
  dir ++ "/" ++ name

/-- The journal file path for day `z` in `output_dir`
(src/journal.py lines 19-20 and 74-75). -/
def journalPath (z : Int) (output_dir : String) : Path :=
  joinPath output_dir (get_title z ++ ".md")

/-- The initial file content written by `create_journal_file`
(lines 26-28): `f"{title}\n"` then `"=" * len(title) + "\n\n"`. -/
def headerChars (title : String) : Content :=
  title.toList ++ ['\n'] ++ List.replicate title.length '=' ++ ['\n', '\n']

/-- `create_journal_file` (src/journal.py lines 15-36), restricted to its
filesystem effect: if the path does not exist, write the three-line header;
otherwise leave the filesystem unchanged.  Returns the path and the updated
filesystem.  (The `print` banners and the `vi` subprocess at line 34 are
external collaborators, outside the filesystem model.) -/
def create_journal_file (z : Int) (output_dir : String) (fs : FS) : Path × FS :=
  let title := get_title z
  let filename := title ++ ".md"
  let filepath := joinPath output_dir filename
  if fsExists fs filepath then (filepath, fs)
  else (filepath, fsWrite fs filepath (headerChars title))

/-- The lines Python yields when iterating an open text file: maximal
`'\n'`-terminated records, plus the final unterminated fragment when it is
nonempty.  `acc` holds the (reversed) characters of the record in progress. -/
def pyLinesAux (acc : Content) : Content → List Content
  | [] => if acc = [] then [] else [acc.reverse]
  | c :: cs => if c = '\n' then acc.reverse :: pyLinesAux [] cs
               else pyLinesAux (c :: acc) cs

/-- The list of lines of a file text under Python's file iteration. -/
def pyLines (cs : Content) : List Content :=
  pyLinesAux [] cs

/-- Only the `'\n'`-terminated records of a file text, the final
unterminated fragment never counted.  This follows the specification's words
for `lineCount` ("counts newline-terminated records in the file"), for
comparison against the source's `get_file_line_count`. -/
def recordsAux (acc : Content) : Content → List Content
  | [] => []
  | c :: cs => if c = '\n' then acc.reverse :: recordsAux [] cs
               else recordsAux (c :: acc) cs

/-- Modelled from the spec (C6's wording): the count of newline-terminated
records of a file text. -/
def newlineRecords (cs : Content) : List Content :=
  recordsAux [] cs

/-- `get_file_line_count` (src/journal.py lines 39-45): `0` when the path
does not exist, else `sum(1 for _ in f)` — the number of lines Python's file
iteration yields. -/
def get_file_line_count (fs : FS) (filepath : Path) : Nat :=
  match fsLookup fs filepath with
  | none => 0
  | some content => (pyLines content).length

/-! ## The date picker (`select_date`, src/journal.py lines 48-139) -/

/-- The 7-date candidate window (lines 61-64):
`[(today - timedelta(days=i)) for i in range(7)]`, then `reverse()`. -/
def pickerDates (today : Int) : List Int :=
  ((List.range 7).map fun i => today - (i : Int)).reverse

/-- `files_exist` (lines 70-77): per candidate date, whether its journal
file exists. -/
def files_exist (dates : List Int) (output_dir : String) (fs : FS) : List Bool :=
  dates.map fun z => fsExists fs (journalPath z output_dir)

/-- `line_counts` (lines 70-84): per candidate date, the stored count —
`get_file_line_count(filepath) - 3` when the file exists, else `0`.
Python ints are unbounded and signed, so the value is an `Int`. -/
def line_counts (dates : List Int) (output_dir : String) (fs : FS) : List Int :=
  dates.map fun z =>
    let filepath := journalPath z output_dir
    if fsExists fs filepath then (get_file_line_count fs filepath : Int) - 3
    else 0

/-- The filesystem accesses the scan at lines 69-84 performs, in order:
for each date an `os.path.exists` check (line 76), and for an existing file
the `os.path.exists` check and the read inside `get_file_line_count`
(lines 41-45). -/
inductive FsOp where
  | checkPath (p : Path)
  | readFile (p : Path)
  | writeFile (p : Path) (c : Content)
deriving DecidableEq

def FsOp.isRead : FsOp → Bool
  | .writeFile _ _ => false
  | _ => true

/-- Replay a list of filesystem operations: only writes mutate. -/
def applyOps (fs : FS) : List FsOp → FS
  | [] => fs
  | .writeFile p c :: rest => applyOps (fsWrite fs p c) rest
  | .checkPath _ :: rest => applyOps fs rest
  | .readFile _ :: rest => applyOps fs rest

/-- The operation trace of the scan at lines 69-84. -/
def scanOps (dates : List Int) (output_dir : String) (fs : FS) : List FsOp :=
  (dates.map fun z =>
    let filepath := journalPath z output_dir
    if fsExists fs filepath then
      [FsOp.checkPath filepath, FsOp.checkPath filepath, FsOp.readFile filepath]
    else [FsOp.checkPath filepath]).flatten

/-- Key codes as returned by `stdscr.getch`. -/
def KEY_UP : Int := 259

def KEY_DOWN : Int := 258

/-- `ord("\n")`. -/
def keyEnter : Int := 10

/-- `ord("q")`. -/
def keyQ : Int := 113

/-- The display string of a row (lines 93-99): `f"{date_str}: {count}"` for
an existing file, the bare title otherwise. -/
def display_str (z : Int) (ex : Bool) (lc : Int) : String :=
  if ex then get_title z ++ ": " ++ toString lc else get_title z

/-- Whether `stdscr.addstr(y, x, s)` succeeds: the text must lie inside the
`h × w` window without wrapping; otherwise `curses.error` is raised. -/
def addstrOk (h w y x : Int) (s : String) : Bool :=
  0 ≤ y && y < h && 0 ≤ x && x + (s.length : Int) ≤ w

/-- The draw calls of one row of the menu (lines 101-120): the arrow for the
selected row at `((w - len) // 2 - 2)`, then the row text at
`((w - len) // 2)`, both on line `y = 4 + idx`.  Python `//` is floor
division, hence `Int.fdiv`. -/
def rowDraws (w row : Int) (idx : Nat) (z : Int) (ex : Bool) (lc : Int) :
    List (Int × Int × String) :=
  let ds := display_str z ex lc
  let arrow_x : Int := Int.fdiv (w - (ds.length : Int)) 2 - 2
  let text_x : Int := Int.fdiv (w - (ds.length : Int)) 2
  let y : Int := 4 + (idx : Int)
  (if (idx : Int) = row then [(y, arrow_x, ">")] else []) ++ [(y, text_x, ds)]

/-- All draw calls of one frame (lines 88-125): every row, then the
instruction line at `(height - 2, 2)`. -/
def frameDraws (h w : Int) (dates : List Int) (exs : List Bool)
    (lcs : List Int) (row : Int) : List (Int × Int × String) :=
  ((List.range dates.length).map fun idx =>
    rowDraws w row idx (dates.getD idx 0) (exs.getD idx false) (lcs.getD idx 0)).flatten
  ++ [(h - 2, 2, "Use arrow keys to navigate, Enter to select, q to quit")]

/-- Whether rendering one frame succeeds, i.e. every `addstr` of the frame
is in bounds.  The source has no handler around the draw calls, so one
failing draw aborts the whole of `select_date`. -/
def renderOk (h w : Int) (dates : List Int) (exs : List Bool)
    (lcs : List Int) (row : Int) : Bool :=
  (frameDraws h w dates exs lcs row).all fun t => addstrOk h w t.1 t.2.1 t.2.2

/-- Whether rendering succeeds at every cursor position of the menu, i.e.
the display is large enough for the whole interaction. -/
def renderAllOk (h w : Int) (dates : List Int) (exs : List Bool)
    (lcs : List Int) : Bool :=
  (List.range dates.length).all fun r => renderOk h w dates exs lcs (r : Int)

/-- Python list indexing `xs[i]`, including negative-index wrap-around;
`none` is an `IndexError`. -/
def pyIndex (xs : List Int) (i : Int) : Option Int :=
  if 0 ≤ i then xs.get? i.toNat
  else if 0 ≤ (xs.length : Int) + i then xs.get? ((xs.length : Int) + i).toNat
  else none

/-- How `select_date` ends: `return dates[current_row]` on Enter,
`return None` on `'q'`, or an uncaught exception (a failing draw call, or an
`IndexError`) aborting it. -/
inductive SelectOutcome where
  | confirmed (d : Int)
  | cancelled
  | crashed
deriving DecidableEq

/-- The menu loop (src/journal.py lines 87-139).  Each iteration first
redraws the frame — a failing draw raises `curses.error`, which nothing
catches, aborting the loop (`crashed`) — then blocks on `getch`.  The key
dispatch is lines 132-139; any other key re-enters the loop unchanged.
`keys` is the sequence of key codes `getch` will deliver; when it is
exhausted the loop is still blocked with no outcome (`none`). -/
def selectLoop (h w : Int) (dates : List Int) (exs : List Bool)
    (lcs : List Int) : Int → List Int → Option SelectOutcome
  | row, [] =>
    if renderOk h w dates exs lcs row then none else some .crashed
  | row, k :: ks =>
    if renderOk h w dates exs lcs row then
      if k = KEY_UP ∧ 0 < row then
        selectLoop h w dates exs lcs (row - 1) ks
      else if k = KEY_DOWN ∧ row < (dates.length : Int) - 1 then
        selectLoop h w dates exs lcs (row + 1) ks
      else if k = keyEnter then
        match pyIndex dates row with
        | some d => some (.confirmed d)
        | none => some .crashed
      else if k = keyQ then some .cancelled
      else selectLoop h w dates exs lcs row ks
    else some .crashed

/-- The cursor dynamics of one key event (lines 132-135): the new
`current_row` when the loop continues browsing. -/
def stepRow (max_row row k : Int) : Int :=
  if k = KEY_UP ∧ 0 < row then row - 1
  else if k = KEY_DOWN ∧ row < max_row then row + 1
  else row

/-- The successive values `current_row` takes while the loop browses a key
sequence (ending at the first Enter or `'q'`). -/
def rowTrace (max_row : Int) : Int → List Int → List Int
  | row, [] => [row]
  | row, k :: ks =>
    if k = KEY_UP ∧ 0 < row then row :: rowTrace max_row (row - 1) ks
    else if k = KEY_DOWN ∧ row < max_row then row :: rowTrace max_row (row + 1) ks
    else if k = keyEnter ∨ k = keyQ then [row]
    else row :: rowTrace max_row row ks

/-- `select_date` (src/journal.py lines 48-139) on an `h × w` terminal:
builds the 7-date window, sets `current_row = max_row` (today), samples
existence and line counts once, then runs the menu loop.  Returns the
outcome together with the trace of filesystem operations performed. -/
def select_date (h w today : Int) (output_dir : String) (fs : FS)
    (keys : List Int) : Option SelectOutcome × List FsOp :=
  let dates := pickerDates today
  let max_row : Int := (dates.length : Int) - 1
  let exs := files_exist dates output_dir fs
  let lcs := line_counts dates output_dir fs
  (selectLoop h w dates exs lcs max_row keys, scanOps dates output_dir fs)

/-- Whether a string has the shape `YYYY-MM-DD-XXX`: four digits, dash, two
digits, dash, two digits, dash, three uppercase letters. -/
def isTitlePattern (s : String) : Bool :=
  match s.toList with
  | [y1, y2, y3, y4, s1, m1, m2, s2, d1, d2, s3, a1, a2, a3] =>
    y1.isDigit && y2.isDigit && y3.isDigit && y4.isDigit && (s1 == '-') &&
    m1.isDigit && m2.isDigit && (s2 == '-') && d1.isDigit && d2.isDigit &&
    (s3 == '-') && a1.isUpper && a2.isUpper && a3.isUpper
  | _ => false

/-- No character of the string is a lowercase letter. -/
def isUpperStr (s : String) : Bool :=
  s.toList.all fun c => !c.isLower

/-! ## `main` (src/journal.py lines 142-169) -/

structure Args where
  out : String
  sel : Bool

/-- `main`: validate the output directory (`os.path.isdir`, modelled as
membership in the list `dirs` of existing directories), then either run the
picker (`-s`) or use today directly, and create/open the journal file.
Result: `some (exit status, final filesystem)`, or `none` when the picker
blocks forever on an exhausted key sequence.  A crash of the picker (an
uncaught exception through `curses.wrapper`) terminates the interpreter
with status 1 and performs no file operation. -/
def mainRun (h w today : Int) (dirs : List String) (fs : FS) (args : Args)
    (keys : List Int) : Option (Nat × FS) :=
  if ¬ dirs.contains args.out then some (1, fs)
  else if args.sel then
    match (select_date h w today args.out fs keys).1 with
    | none => none
    | some .cancelled => some (0, fs)
    | some (.confirmed d) => some (0, (create_journal_file d args.out fs).2)
    | some .crashed => some (1, fs)
  else some (0, (create_journal_file today args.out fs).2)

/-! ## Shared lemmas -/

theorem pickerDates_eq (t : Int) :
    pickerDates t = [t - 6, t - 5, t - 4, t - 3, t - 2, t - 1, t] := by
  simp [pickerDates, List.range_succ]

theorem pickerDates_length (t : Int) : (pickerDates t).length = 7 := by
  rw [pickerDates_eq]; rfl

theorem rowTrace_bounds (max_row : Int) :
    ∀ (keys : List Int) (r : Int), 0 ≤ r → r ≤ max_row →
      ∀ x ∈ rowTrace max_row r keys, 0 ≤ x ∧ x ≤ max_row := by
  intro keys
  induction keys with
  | nil =>
    intro r h0 h1 x hx
    simp only [rowTrace, List.mem_singleton] at hx
    omega
  | cons k ks ih =>
    intro r h0 h1 x hx
    simp only [rowTrace] at hx
    split_ifs at hx with h2 h3 h4
    · rcases List.mem_cons.mp hx with rfl | hx
      · omega
      · exact ih (r - 1) (by omega) (by omega) x hx
    · rcases List.mem_cons.mp hx with rfl | hx
      · omega
      · exact ih (r + 1) (by omega) (by omega) x hx
    · simp only [List.mem_singleton] at hx
      omega
    · rcases List.mem_cons.mp hx with rfl | hx
      · omega
      · exact ih r h0 h1 x hx

/-! ## The claims -/

/-- C1: for every input sequence, the picker's cursor index stays in
`[0, 6]`; an up event sets it to `max 0 (cursor - 1)` (from the initial 6
one up yields 5; at 0 it stays 0), a down event sets it to
`min 6 (cursor + 1)` (at 6 it stays 6), and any key other than up, down,
Enter and `'q'` leaves the cursor unchanged and the loop browsing with the
same state. -/
theorem cursor_navigation (r : Int) (hr : 0 ≤ r ∧ r ≤ 6) :
    (∀ keys, ∀ x ∈ rowTrace 6 r keys, 0 ≤ x ∧ x ≤ 6) ∧
    stepRow 6 r KEY_UP = max 0 (r - 1) ∧
    stepRow 6 r KEY_DOWN = min 6 (r + 1) ∧
    (∀ k, k ≠ KEY_UP → k ≠ KEY_DOWN → k ≠ keyEnter → k ≠ keyQ →
      stepRow 6 r k = r) ∧
    (∀ h w dates exs lcs k ks,
      renderOk h w dates exs lcs r = true → k ≠ keyEnter → k ≠ keyQ →
      selectLoop h w dates exs lcs r (k :: ks) =
        selectLoop h w dates exs lcs (stepRow ((dates.length : Int) - 1) r k) ks) := by
  obtain ⟨hr0, hr6⟩ := hr
  refine ⟨fun keys => rowTrace_bounds 6 keys r hr0 hr6, ?_, ?_, ?_, ?_⟩
  · simp only [stepRow, KEY_UP, KEY_DOWN]
    norm_num
    split_ifs <;> omega
  · simp only [stepRow, KEY_UP, KEY_DOWN]
    norm_num
    split_ifs <;> omega
  · intro k hu hd he hq
    simp only [stepRow]
    split_ifs with h1 h2
    · exact absurd h1.1 hu
    · exact absurd h2.1 hd
    · rfl
  · intro h w dates exs lcs k ks hrend hke hkq
    by_cases hup : k = KEY_UP ∧ 0 < r
    · simp [selectLoop, stepRow, hrend, hup, KEY_UP, KEY_DOWN]
    · by_cases hdn : k = KEY_DOWN ∧ r < (dates.length : Int) - 1
      · simp [selectLoop, stepRow, hrend, hdn, hup, KEY_UP, KEY_DOWN]
      · simp [selectLoop, stepRow, hrend, hup, hdn, hke, hkq]

/-- Witness for C1 at the initial cursor 6: one up event yields 5. -/
theorem cursor_navigation_witness :
    stepRow 6 6 KEY_UP = max 0 (6 - 1) :=
  (cursor_navigation 6 (by norm_num)).2.1

/-- C2: the candidate window is the 7 consecutive dates ending today,
oldest first (index 0 = 6 days ago, index 6 = today), the initial cursor is
index 6, and for today = 2024-03-15 (a Friday) the window runs from
2024-03-09 (a Saturday) to 2024-03-15. -/
theorem picker_window (t : Int) :
    pickerDates t = [t - 6, t - 5, t - 4, t - 3, t - 2, t - 1, t] ∧
    (pickerDates t).length = 7 ∧
    (pickerDates t).getD 6 0 = t ∧
    (pickerDates t).getD 0 0 = t - 6 ∧
    (∀ h w dir fs keys,
      select_date h w t dir fs keys =
        (selectLoop h w (pickerDates t) (files_exist (pickerDates t) dir fs)
            (line_counts (pickerDates t) dir fs) 6 keys,
         scanOps (pickerDates t) dir fs)) ∧
    pickerDates (daysFromCivil 2024 3 15) =
      [daysFromCivil 2024 3 9, daysFromCivil 2024 3 10, daysFromCivil 2024 3 11,
       daysFromCivil 2024 3 12, daysFromCivil 2024 3 13, daysFromCivil 2024 3 14,
       daysFromCivil 2024 3 15] ∧
    get_title (daysFromCivil 2024 3 9) = "2024-03-09-SAT" ∧
    get_title (daysFromCivil 2024 3 15) = "2024-03-15-FRI" := by
  refine ⟨pickerDates_eq t, pickerDates_length t, ?_, ?_, ?_, by decide, by decide,
    by decide⟩
  · rw [pickerDates_eq]; rfl
  · rw [pickerDates_eq]; rfl
  · intro h w dir fs keys
    simp only [select_date, pickerDates_length]
    norm_num

theorem get?_eq_some_getD (xs : List Int) (n : Nat) (h : n < xs.length) :
    xs.get? n = some (xs.getD n 0) := by
  induction xs generalizing n with
  | nil => simp at h
  | cons a l ih =>
    cases n with
    | zero => rfl
    | succ m =>
      have hm : m < l.length := by simpa using h
      simpa [List.get?, List.getD] using ih m hm

theorem renderAllOk_renderOk (h w : Int) (dates : List Int) (exs : List Bool)
    (lcs : List Int) (hall : renderAllOk h w dates exs lcs = true)
    (r : Int) (h0 : 0 ≤ r) (hlt : r < (dates.length : Int)) :
    renderOk h w dates exs lcs r = true := by
  unfold renderAllOk at hall
  rw [List.all_eq_true] at hall
  have hmem : r.toNat ∈ List.range dates.length := by
    rw [List.mem_range]; omega
  have hr := hall _ hmem
  rwa [Int.toNat_of_nonneg h0] at hr

theorem selectLoop_outcomes (h w : Int) (dates : List Int) (exs : List Bool)
    (lcs : List Int) (hlen : dates.length = 7)
    (hall : renderAllOk h w dates exs lcs = true) :
    ∀ (keys : List Int) (r : Int) (out : SelectOutcome), 0 ≤ r → r ≤ 6 →
      selectLoop h w dates exs lcs r keys = some out →
      out = SelectOutcome.cancelled ∨
        ∃ i : Nat, i < 7 ∧ out = SelectOutcome.confirmed (dates.getD i 0) := by
  intro keys
  induction keys with
  | nil =>
    intro r out h0 h6 hrun
    have hrok := renderAllOk_renderOk h w dates exs lcs hall r h0 (by omega)
    simp [selectLoop, hrok] at hrun
  | cons k ks ih =>
    intro r out h0 h6 hrun
    have hrok := renderAllOk_renderOk h w dates exs lcs hall r h0 (by omega)
    simp only [selectLoop, hrok, if_true] at hrun
    split_ifs at hrun with h1 h2 h3 h4
    · exact ih (r - 1) out (by omega) (by omega) hrun
    · exact ih (r + 1) out (by omega) (by omega) hrun
    · rw [pyIndex, if_pos h0,
        get?_eq_some_getD dates r.toNat (by omega)] at hrun
      right
      refine ⟨r.toNat, by omega, ?_⟩
      simpa using hrun.symm
    · left
      simpa using hrun.symm
    · exact ih r out h0 h6 hrun

/-- C3: from Browsing with a display large enough to render, pressing Enter
makes the picker return `dates[current_row]`, pressing `'q'` makes it return
`None`, and every terminating run returns through one of those two
transitions. -/
theorem picker_returns (t h w : Int) (dir : String) (fs : FS)
    (dates : List Int) (exs : List Bool) (lcs : List Int) (r : Int)
    (hdates : dates = pickerDates t) (hexs : exs = files_exist dates dir fs)
    (hlcs : lcs = line_counts dates dir fs)
    (hr0 : 0 ≤ r) (hr6 : r ≤ 6)
    (hall : renderAllOk h w dates exs lcs = true) :
    (∀ ks, selectLoop h w dates exs lcs r (keyEnter :: ks) =
      some (SelectOutcome.confirmed (dates.getD r.toNat 0))) ∧
    (∀ ks, selectLoop h w dates exs lcs r (keyQ :: ks) =
      some SelectOutcome.cancelled) ∧
    (∀ keys out, selectLoop h w dates exs lcs r keys = some out →
      out = SelectOutcome.cancelled ∨
        ∃ i : Nat, i < 7 ∧ out = SelectOutcome.confirmed (dates.getD i 0)) := by
  have hlen : dates.length = 7 := by rw [hdates, pickerDates_length]
  have hrok := renderAllOk_renderOk h w dates exs lcs hall r hr0 (by omega)
  refine ⟨?_, ?_,
    fun keys out => selectLoop_outcomes h w dates exs lcs hlen hall keys r out hr0 hr6⟩
  · intro ks
    simp only [selectLoop, hrok, if_true, keyEnter, KEY_UP, KEY_DOWN, keyQ]
    norm_num
    rw [pyIndex, if_pos hr0, get?_eq_some_getD dates r.toNat (by omega)]
    simp [List.getD]
  · intro ks
    simp only [selectLoop, hrok, if_true, keyEnter, KEY_UP, KEY_DOWN, keyQ]
    norm_num

/-- Witness for C3: on an 80×24 display over an empty directory, with the
cursor moved up once (index 5), Enter returns the date one day before
today (day number 19797 = 2024-03-15). -/
theorem picker_returns_witness :
    selectLoop 24 80 (pickerDates 19797) (files_exist (pickerDates 19797) "." [])
        (line_counts (pickerDates 19797) "." []) 5 [keyEnter] =
      some (SelectOutcome.confirmed ((pickerDates 19797).getD 5 0)) :=
  ((picker_returns 19797 24 80 "." [] (pickerDates 19797)
      (files_exist (pickerDates 19797) "." []) (line_counts (pickerDates 19797) "." [])
      5 rfl rfl rfl (by norm_num) (by norm_num) (by decide)).1 [])

theorem scanOps_reads (dates : List Int) (dir : String) (fs : FS) :
    ∀ op ∈ scanOps dates dir fs, FsOp.isRead op = true := by
  intro op hop
  unfold scanOps at hop
  rw [List.mem_flatten] at hop
  obtain ⟨l, hl, hop⟩ := hop
  rw [List.mem_map] at hl
  obtain ⟨z, _, rfl⟩ := hl
  dsimp only at hop
  split_ifs at hop <;>
    · simp only [List.mem_cons, List.mem_singleton, List.not_mem_nil, or_false] at hop
      rcases hop with rfl | rfl | rfl <;> rfl

theorem applyOps_reads (ops : List FsOp) :
    ∀ fs : FS, (∀ op ∈ ops, FsOp.isRead op = true) → applyOps fs ops = fs := by
  induction ops with
  | nil => intro fs _; rfl
  | cons op rest ih =>
    intro fs hall
    cases op with
    | checkPath p =>
      exact ih fs fun o ho => hall o (List.mem_cons_of_mem _ ho)
    | readFile p =>
      exact ih fs fun o ho => hall o (List.mem_cons_of_mem _ ho)
    | writeFile p c =>
      have hw := hall _ (List.mem_cons_self _ _)
      simp [FsOp.isRead] at hw

/-- C10: for every input sequence and filesystem, the picker performs only
read operations (existence checks and file reads), all sampled before the
input loop and independent of the keys, so replaying its operation trace
leaves the filesystem unchanged. -/
theorem picker_frame (h w t : Int) (dir : String) (fs : FS) (keys : List Int) :
    (∀ op ∈ (select_date h w t dir fs keys).2, FsOp.isRead op = true) ∧
    applyOps fs (select_date h w t dir fs keys).2 = fs ∧
    (select_date h w t dir fs keys).2 = (select_date h w t dir fs []).2 := by
  have h2 : (select_date h w t dir fs keys).2 = scanOps (pickerDates t) dir fs := rfl
  refine ⟨?_, ?_, rfl⟩
  · rw [h2]
    exact scanOps_reads _ _ _
  · rw [h2]
    exact applyOps_reads _ fs (scanOps_reads _ _ _)

/-- C8: with the picker invoked over an existing output directory, a run
that cancels (the user presses `'q'`) exits with status 0 and leaves the
filesystem exactly as it was: no file created, none modified. -/
theorem cancel_no_side_effect (h w today : Int) (dirs : List String) (fs : FS)
    (args : Args) (keys : List Int) (hsel : args.sel = true)
    (hdir : dirs.contains args.out = true)
    (hq : (select_date h w today args.out fs keys).1 = some SelectOutcome.cancelled) :
    mainRun h w today dirs fs args keys = some (0, fs) := by
  unfold mainRun
  rw [if_neg (by simpa using hdir), if_pos (by simp [hsel]), hq]

/-- Witness for C8: today = 2024-03-15 (day 19797), empty directory `"."`,
the single key `'q'`: exit status 0 and the filesystem still empty. -/
theorem cancel_no_side_effect_witness :
    mainRun 24 80 19797 ["."] [] ⟨".", true⟩ [keyQ] = some (0, []) :=
  cancel_no_side_effect 24 80 19797 ["."] [] ⟨".", true⟩ [keyQ] rfl (by decide)
    (by decide)

/-- C9 (refuting the claimed recovery): the source wraps no draw call in a
handler, so on a display too short for the rows (here 80×5, today =
2024-03-15 = day 19797, empty directory) the out-of-bounds `addstr` raises
`curses.error` and aborts the picker — even though the next key is `'q'` —
whereas the same run on an 80×24 display cancels normally.  The drawing
error therefore does terminate the interactive session, contrary to the
claim. -/
theorem small_screen_crash :
    (select_date 5 80 19797 "." [] [keyQ]).1 = some SelectOutcome.crashed ∧
    (select_date 24 80 19797 "." [] [keyQ]).1 = some SelectOutcome.cancelled ∧
    renderOk 5 80 (pickerDates 19797) (files_exist (pickerDates 19797) "." [])
      (line_counts (pickerDates 19797) "." []) 6 = false := by
  refine ⟨by decide, by decide, by decide⟩

theorem digitChar_fin_facts :
    ∀ j : Fin 10, (digitChar j.val).isDigit = true ∧
      Char.toUpper (digitChar j.val) = digitChar j.val ∧
      (digitChar j.val).isLower = false ∧ digitChar j.val ≠ '\n' := by
  decide

theorem digitChar_mod_isDigit (k : Nat) : (digitChar (k % 10)).isDigit = true :=
  (digitChar_fin_facts ⟨k % 10, Nat.mod_lt _ (by norm_num)⟩).1

theorem digitChar_mod_toUpper (k : Nat) :
    Char.toUpper (digitChar (k % 10)) = digitChar (k % 10) :=
  (digitChar_fin_facts ⟨k % 10, Nat.mod_lt _ (by norm_num)⟩).2.1

theorem digitChar_mod_not_lower (k : Nat) : (digitChar (k % 10)).isLower = false :=
  (digitChar_fin_facts ⟨k % 10, Nat.mod_lt _ (by norm_num)⟩).2.2.1

theorem digitChar_mod_ne_newline (k : Nat) : digitChar (k % 10) ≠ '\n' :=
  (digitChar_fin_facts ⟨k % 10, Nat.mod_lt _ (by norm_num)⟩).2.2.2

theorem abbrevU_cases (n : Nat) :
    (weekdayAbbrevChars n).map Char.toUpper = ['S', 'U', 'N'] ∨
    (weekdayAbbrevChars n).map Char.toUpper = ['M', 'O', 'N'] ∨
    (weekdayAbbrevChars n).map Char.toUpper = ['T', 'U', 'E'] ∨
    (weekdayAbbrevChars n).map Char.toUpper = ['W', 'E', 'D'] ∨
    (weekdayAbbrevChars n).map Char.toUpper = ['T', 'H', 'U'] ∨
    (weekdayAbbrevChars n).map Char.toUpper = ['F', 'R', 'I'] ∨
    (weekdayAbbrevChars n).map Char.toUpper = ['S', 'A', 'T'] := by
  rcases n with _ | _ | _ | _ | _ | _ | n <;>
    first
      | decide
      | (simp only [weekdayAbbrevChars]; decide)

theorem titleU_expand (z : Int) :
    titleU z =
      [digitChar ((civilFromDays z).1.toNat / 1000 % 10),
       digitChar ((civilFromDays z).1.toNat / 100 % 10),
       digitChar ((civilFromDays z).1.toNat / 10 % 10),
       digitChar ((civilFromDays z).1.toNat % 10), '-',
       digitChar ((civilFromDays z).2.1 / 10 % 10),
       digitChar ((civilFromDays z).2.1 % 10), '-',
       digitChar ((civilFromDays z).2.2 / 10 % 10),
       digitChar ((civilFromDays z).2.2 % 10), '-']
      ++ (weekdayAbbrevChars (weekdayFromDays z)).map Char.toUpper := by
  have hdash : Char.toUpper '-' = '-' := by decide
  unfold titleU titleChars pad4chars pad2chars
  simp only [List.map_append, List.map_cons, List.map_nil, hdash,
    digitChar_mod_toUpper, List.cons_append, List.nil_append]

/-- Every character of a title is a digit, a dash, or an uppercase letter of
a weekday abbreviation: in particular never a newline and never lowercase. -/
theorem titleU_chars (z : Int) :
    ∀ c ∈ titleU z, c ≠ '\n' ∧ c.isLower = false := by
  intro c hc
  rw [titleU_expand] at hc
  rcases List.mem_append.mp hc with hc | hc
  · simp only [List.mem_cons, List.not_mem_nil, or_false] at hc
    rcases hc with rfl | rfl | rfl | rfl | rfl | rfl | rfl | rfl | rfl | rfl | rfl
    · exact ⟨digitChar_mod_ne_newline _, digitChar_mod_not_lower _⟩
    · exact ⟨digitChar_mod_ne_newline _, digitChar_mod_not_lower _⟩
    · exact ⟨digitChar_mod_ne_newline _, digitChar_mod_not_lower _⟩
    · exact ⟨digitChar_mod_ne_newline _, digitChar_mod_not_lower _⟩
    · exact ⟨by decide, by decide⟩
    · exact ⟨digitChar_mod_ne_newline _, digitChar_mod_not_lower _⟩
    · exact ⟨digitChar_mod_ne_newline _, digitChar_mod_not_lower _⟩
    · exact ⟨by decide, by decide⟩
    · exact ⟨digitChar_mod_ne_newline _, digitChar_mod_not_lower _⟩
    · exact ⟨digitChar_mod_ne_newline _, digitChar_mod_not_lower _⟩
    · exact ⟨by decide, by decide⟩
  · rcases abbrevU_cases (weekdayFromDays z) with h | h | h | h | h | h | h <;>
      rw [h] at hc <;>
      simp only [List.mem_cons, List.not_mem_nil, or_false] at hc <;>
      rcases hc with rfl | rfl | rfl <;> exact ⟨by decide, by decide⟩

/-- C5: for every date in the `datetime` domain (year 1..9999), the title is
an uppercase string of shape `YYYY-MM-DD-XXX`, its last three characters are
the uppercased English 3-letter weekday abbreviation of the date, and
`get_title` is a deterministic function of the day number alone (it is a
plain function in this model, with no locale input);
`titleFor(2024-03-15) = "2024-03-15-FRI"` (day number 19797). -/
theorem title_format (z : Int) (hz : validDay z) :
    isUpperStr (get_title z) = true ∧
    isTitlePattern (get_title z) = true ∧
    (get_title z).toList.drop 11 =
      (weekdayAbbrevChars (weekdayFromDays z)).map Char.toUpper ∧
    get_title (daysFromCivil 2024 3 15) = "2024-03-15-FRI" := by
  have hT : (get_title z).toList = titleU z := rfl
  refine ⟨?_, ?_, ?_, by decide⟩
  · simp only [isUpperStr]
    rw [List.all_eq_true]
    intro c hc
    have hlow := (titleU_chars z c (by rwa [hT] at hc)).2
    simp [hlow]
  · rcases abbrevU_cases (weekdayFromDays z) with h | h | h | h | h | h | h <;>
      · have e := titleU_expand z
        rw [h] at e
        simp only [List.cons_append, List.nil_append] at e
        have hTe := hT.trans e
        simp only [isTitlePattern, hTe]
        simp [digitChar_mod_isDigit]
  · rw [hT, titleU_expand]
    exact List.drop_left' rfl

/-- Witness for C5 at day 19797 = 2024-03-15. -/
theorem title_format_witness :
    isTitlePattern (get_title 19797) = true :=
  (title_format 19797 (by decide)).2.1

theorem pyLinesAux_append_newline (xs rest : Content)
    (hx : ∀ c ∈ xs, c ≠ '\n') :
    ∀ acc, pyLinesAux acc (xs ++ '\n' :: rest) =
      (acc.reverse ++ xs) :: pyLinesAux [] rest := by
  induction xs with
  | nil =>
    intro acc
    simp [pyLinesAux]
  | cons c cs ih =>
    intro acc
    have hc : c ≠ '\n' := hx c (List.mem_cons_self _ _)
    simp only [List.cons_append, pyLinesAux, if_neg hc, List.append_eq]
    rw [ih (fun d hd => hx d (List.mem_cons_of_mem _ hd)) (c :: acc)]
    simp

/-- The freshly created file consists of exactly three Python lines: the
title, the `=` rule of the title's length, and a blank line. -/
theorem pyLines_header (z : Int) :
    pyLines (headerChars (get_title z)) =
      [(get_title z).toList, List.replicate (get_title z).length '=', []] := by
  have h1 : ∀ c ∈ (get_title z).toList, c ≠ '\n' :=
    fun c hc => (titleU_chars z c hc).1
  have h2 : ∀ c ∈ List.replicate (get_title z).length '=', c ≠ '\n' := by
    intro c hc
    rw [List.eq_of_mem_replicate hc]
    decide
  unfold pyLines headerChars
  have e : (get_title z).toList ++ ['\n'] ++
        List.replicate (get_title z).length '=' ++ ['\n', '\n'] =
      (get_title z).toList ++ '\n' ::
        (List.replicate (get_title z).length '=' ++ '\n' :: ['\n']) := by
    simp
  rw [e, pyLinesAux_append_newline _ _ h1 [], pyLinesAux_append_newline _ _ h2 []]
  simp [pyLinesAux]

/-- C4: when the file for the date is absent, `create_journal_file` creates
it containing exactly three lines — the title, a rule of `=` characters of
the title's length, and a blank line; when the file exists it performs no
mutation, and a second call for the same date and directory leaves exactly
the filesystem of the first call. -/
theorem ensure_created (z : Int) (dir : String) (fs : FS) :
    (fsExists fs (journalPath z dir) = false →
      fsLookup (create_journal_file z dir fs).2 (journalPath z dir) =
          some (headerChars (get_title z)) ∧
      pyLines (headerChars (get_title z)) =
        [(get_title z).toList, List.replicate (get_title z).length '=', []]) ∧
    (fsExists fs (journalPath z dir) = true →
      (create_journal_file z dir fs).2 = fs) ∧
    (create_journal_file z dir (create_journal_file z dir fs).2).2 =
      (create_journal_file z dir fs).2 := by
  have hp : journalPath z dir = joinPath dir (get_title z ++ ".md") := rfl
  refine ⟨?_, ?_, ?_⟩
  · intro hne
    refine ⟨?_, pyLines_header z⟩
    rw [hp] at hne
    simp only [create_journal_file]
    rw [if_neg (by simp [hne])]
    simp [fsWrite, fsLookup, hp]
  · intro hex
    rw [hp] at hex
    simp only [create_journal_file]
    rw [if_pos (by simp [hex])]
  · by_cases hex : fsExists fs (joinPath dir (get_title z ++ ".md")) = true
    · have h1 : (create_journal_file z dir fs).2 = fs := by
        simp only [create_journal_file]
        rw [if_pos hex]
      rw [h1]
      exact h1
    · have h1 : (create_journal_file z dir fs).2 =
          fsWrite fs (joinPath dir (get_title z ++ ".md"))
            (headerChars (get_title z)) := by
        simp only [create_journal_file]
        rw [if_neg hex]
      rw [h1]
      have h2 : fsExists (fsWrite fs (joinPath dir (get_title z ++ ".md"))
            (headerChars (get_title z)))
          (joinPath dir (get_title z ++ ".md")) = true := by
        simp [fsExists, fsWrite, fsLookup]
      simp only [create_journal_file]
      rw [if_pos h2]

/-- Witness for C4: creating today's file (day 19797 = 2024-03-15) in an
empty directory stores exactly the three-line header. -/
theorem ensure_created_witness :
    fsLookup (create_journal_file 19797 "." []).2 (journalPath 19797 ".") =
      some (headerChars (get_title 19797)) :=
  ((ensure_created 19797 "." []).1 (by decide)).1

theorem pyLinesAux_cons (acc : Content) (c : Char) (cs : Content) :
    pyLinesAux acc (c :: cs) =
      if c = '\n' then acc.reverse :: pyLinesAux [] cs
      else pyLinesAux (c :: acc) cs := rfl

theorem recordsAux_cons (acc : Content) (c : Char) (cs : Content) :
    recordsAux acc (c :: cs) =
      if c = '\n' then acc.reverse :: recordsAux [] cs
      else recordsAux (c :: acc) cs := rfl

/-- Python's line iteration yields exactly the newline-terminated records,
plus one more line — the unterminated final fragment — when the text is
nonempty and does not end with a newline. -/
theorem pyLinesAux_records (cs : Content) :
    ∀ acc, (pyLinesAux acc cs).length =
      (recordsAux acc cs).length +
        (if cs.getLast? = some '\n' ∨ (cs = [] ∧ acc = []) then 0 else 1) := by
  induction cs with
  | nil =>
    intro acc
    by_cases h : acc = [] <;> simp [pyLinesAux, recordsAux, h]
  | cons c cs ih =>
    intro acc
    by_cases hc : c = '\n'
    · subst hc
      rw [pyLinesAux_cons, recordsAux_cons, if_pos rfl, if_pos rfl,
        List.length_cons, List.length_cons, ih []]
      cases cs with
      | nil => simp
      | cons d ds =>
        rw [List.getLast?_cons_cons]
        simp only [List.cons_ne_nil, false_and, or_false]
        omega
    · rw [pyLinesAux_cons, recordsAux_cons, if_neg hc, if_neg hc, ih (c :: acc)]
      cases cs with
      | nil => simp [hc]
      | cons d ds =>
        rw [List.getLast?_cons_cons]
        simp

theorem recordsAux_append_newline (xs rest : Content)
    (hx : ∀ c ∈ xs, c ≠ '\n') :
    ∀ acc, recordsAux acc (xs ++ '\n' :: rest) =
      (acc.reverse ++ xs) :: recordsAux [] rest := by
  induction xs with
  | nil =>
    intro acc
    simp [recordsAux]
  | cons c cs ih =>
    intro acc
    have hc : c ≠ '\n' := hx c (List.mem_cons_self _ _)
    simp only [List.cons_append, recordsAux_cons, if_neg hc, List.append_eq]
    rw [ih (fun d hd => hx d (List.mem_cons_of_mem _ hd)) (c :: acc)]
    simp

/-- The newline-terminated records of a freshly created file followed by
appended text `t`: the three header records, then the records of `t`. -/
theorem newlineRecords_header_append (z : Int) (t : Content) :
    newlineRecords (headerChars (get_title z) ++ t) =
      (get_title z).toList :: List.replicate (get_title z).length '=' ::
        [] :: newlineRecords t := by
  have h1 : ∀ c ∈ (get_title z).toList, c ≠ '\n' :=
    fun c hc => (titleU_chars z c hc).1
  have h2 : ∀ c ∈ List.replicate (get_title z).length '=', c ≠ '\n' := by
    intro c hc
    rw [List.eq_of_mem_replicate hc]
    decide
  unfold newlineRecords headerChars
  have e : (get_title z).toList ++ ['\n'] ++
        List.replicate (get_title z).length '=' ++ ['\n', '\n'] ++ t =
      (get_title z).toList ++ '\n' ::
        (List.replicate (get_title z).length '=' ++ '\n' :: ('\n' :: t)) := by
    simp
  rw [e, recordsAux_append_newline _ _ h1 [], recordsAux_append_newline _ _ h2 [],
    recordsAux_cons, if_pos rfl]
  simp

/-- C6 as stated is false at a file whose content does not end with a
newline: the content `"x"` has zero newline-terminated records, yet
`get_file_line_count` (Python's file iteration) reports 1 line. -/
theorem line_count_counterexample :
    fsLookup [("./X.md", ['x'])] "./X.md" = some ['x'] ∧
    (newlineRecords ['x']).length = 0 ∧
    get_file_line_count [("./X.md", ['x'])] "./X.md" = 1 := by
  refine ⟨by decide, by decide, by decide⟩

/-- C6 amended: `get_file_line_count` returns 0 when the file is absent,
and otherwise the number of newline-terminated records plus one when the
content is nonempty and does not end with a newline (the unterminated final
fragment counts as a line); consequently appending `N` newline-terminated
lines to a freshly created file and counting yields `3 + N`. -/
theorem line_count_amended (fs : FS) (p : Path) (z : Int) (dir : String)
    (t : Content) :
    (fsLookup fs p = none → get_file_line_count fs p = 0) ∧
    (∀ s, fsLookup fs p = some s →
      get_file_line_count fs p =
        (newlineRecords s).length +
          (if s.getLast? = some '\n' ∨ s = [] then 0 else 1)) ∧
    (fsExists fs (journalPath z dir) = false →
      t = [] ∨ t.getLast? = some '\n' →
      get_file_line_count
          (fsWrite (create_journal_file z dir fs).2 (journalPath z dir)
            (headerChars (get_title z) ++ t))
          (journalPath z dir) =
        3 + (newlineRecords t).length) := by
  refine ⟨?_, ?_, ?_⟩
  · intro hnone
    unfold get_file_line_count
    rw [hnone]
  · intro s hsome
    have hclc : get_file_line_count fs p = (pyLinesAux [] s).length := by
      unfold get_file_line_count
      rw [hsome]
      rfl
    rw [hclc, pyLinesAux_records s []]
    unfold newlineRecords
    congr 1
    by_cases h1 : s.getLast? = some '\n' <;> by_cases h2 : s = [] <;>
      simp [h1, h2]
  · intro _ ht
    have hlook : fsLookup
        (fsWrite (create_journal_file z dir fs).2 (journalPath z dir)
          (headerChars (get_title z) ++ t)) (journalPath z dir) =
        some (headerChars (get_title z) ++ t) := by
      simp [fsWrite, fsLookup]
    have hclc : get_file_line_count
        (fsWrite (create_journal_file z dir fs).2 (journalPath z dir)
          (headerChars (get_title z) ++ t)) (journalPath z dir) =
        (pyLinesAux [] (headerChars (get_title z) ++ t)).length := by
      unfold get_file_line_count
      rw [hlook]
      rfl
    rw [hclc, pyLinesAux_records _ [],
      show recordsAux [] (headerChars (get_title z) ++ t) =
        newlineRecords (headerChars (get_title z) ++ t) from rfl,
      newlineRecords_header_append z t]
    have hlast : (headerChars (get_title z) ++ t).getLast? = some '\n' := by
      rcases ht with rfl | ht
      · rw [List.append_nil]
        unfold headerChars
        rw [show (get_title z).toList ++ ['\n'] ++
              List.replicate (get_title z).length '=' ++ ['\n', '\n'] =
            ((get_title z).toList ++ ['\n'] ++
              List.replicate (get_title z).length '=') ++ ['\n', '\n'] from by simp,
          List.getLast?_append_of_ne_nil _ (by simp)]
        rfl
      · have htne : t ≠ [] := by
          intro h
          rw [h] at ht
          simp at ht
        rw [List.getLast?_append_of_ne_nil _ htne]
        exact ht
    rw [if_pos (Or.inl hlast)]
    simp only [List.length_cons, Nat.add_zero]
    omega

/-- Witness for C6 (amended): a fresh file for day 19797 with two appended
lines counts 5 lines. -/
theorem line_count_amended_witness :
    get_file_line_count
        (fsWrite (create_journal_file 19797 "." []).2 (journalPath 19797 ".")
          (headerChars (get_title 19797) ++ ('a' :: '\n' :: 'b' :: '\n' :: [])))
        (journalPath 19797 ".") =
      3 + (newlineRecords ('a' :: '\n' :: 'b' :: '\n' :: [])).length :=
  (line_count_amended [] "p" 19797 "." ('a' :: '\n' :: 'b' :: '\n' :: [])).2.2
    (by decide) (Or.inr (by decide))

theorem map_getD {α β : Type} (f : α → β) :
    ∀ (l : List α) (i : Nat), i < l.length → ∀ (d : α) (e : β),
      (l.map f).getD i e = f (l.getD i d) := by
  intro l
  induction l with
  | nil =>
    intro i hi
    simp at hi
  | cons a l ih =>
    intro i hi d e
    cases i with
    | zero => rfl
    | succ j =>
      have hj : j < l.length := by simpa using hi
      simpa [List.getD_cons_succ] using ih j hj d e

/-- C7: for an existing file in the picker window, the stored row count is
the file's total line count minus 3, unclamped over the integers — when the
file has fewer than 3 lines the stored value is negative — and the display
string renders that stored (possibly negative) value as-is. -/
theorem display_row_count (t : Int) (dir : String) (fs : FS) (i : Nat)
    (hi : i < 7)
    (hex : (files_exist (pickerDates t) dir fs).getD i false = true) :
    (line_counts (pickerDates t) dir fs).getD i 0 =
        (get_file_line_count fs
          (journalPath ((pickerDates t).getD i 0) dir) : Int) - 3 ∧
    (get_file_line_count fs (journalPath ((pickerDates t).getD i 0) dir) < 3 →
      (line_counts (pickerDates t) dir fs).getD i 0 < 0) ∧
    display_str ((pickerDates t).getD i 0) true
        ((line_counts (pickerDates t) dir fs).getD i 0) =
      get_title ((pickerDates t).getD i 0) ++ ": " ++
        toString ((line_counts (pickerDates t) dir fs).getD i 0) := by
  have hlen : i < (pickerDates t).length := by
    rw [pickerDates_length]
    omega
  have hexz : fsExists fs (journalPath ((pickerDates t).getD i 0) dir) = true := by
    have hm := map_getD (fun z => fsExists fs (journalPath z dir))
      (pickerDates t) i hlen 0 false
    unfold files_exist at hex
    rw [hm] at hex
    exact hex
  have hlc : (line_counts (pickerDates t) dir fs).getD i 0 =
      (get_file_line_count fs
        (journalPath ((pickerDates t).getD i 0) dir) : Int) - 3 := by
    have hm := map_getD (fun z =>
        if fsExists fs (journalPath z dir) then
          (get_file_line_count fs (journalPath z dir) : Int) - 3
        else 0)
      (pickerDates t) i hlen 0 0
    unfold line_counts
    rw [hm, if_pos hexz]
  refine ⟨hlc, ?_, ?_⟩
  · intro hsmall
    rw [hlc]
    omega
  · simp [display_str]

/-- Witness for C7: an existing journal file for day 19797 (the window's
index 6) holding one line stores the negative count `1 - 3 = -2`. -/
theorem display_row_count_witness :
    (line_counts (pickerDates 19797) "." [(journalPath 19797 ".", ['a'])]).getD 6 0
      < 0 :=
  (display_row_count 19797 "." [(journalPath 19797 ".", ['a'])] 6 (by norm_num)
    (by decide)).2.1 (by decide)

end Journal
